import Mathlib

/-
Shallow embedding of the iChip2128 WiFi driver (src/ichip_2128.cpp) and the
serial console (src/SerialConsole.cpp) of the SENSIRION repository, with
theorems settling the specification's claims about them.

Strings of the embedded C code are modelled as lists of characters, machine
integers as Nat/Int (the quantities involved stay far from any overflow
bound except where noted), and each C function as a Lean function from its
explicit state to its new state together with its observable output.
-/

/-- Byte strings of the embedded C code, as lists of characters. -/
abbrev CStr := List Char

/-- The protocol states of the driver (enum ICHIP_COMM_STATE).  The header
that declares the enum is not part of the repository snapshot; the four
states that src/ichip_2128.cpp uses are modelled. -/
inductive ICHIP_COMM_STATE where
  | IDLE
  | GET_PARAM
  | SET_PARAM
  | SEND_SOCKET
deriving DecidableEq, Repr

/-- One entry of ICHIPWIFI::sendingBuffer: the buffered command text and the
protocol state the engine should enter when the command is eventually sent. -/
structure BufferedCommand where
  cmd : CStr
  state : ICHIP_COMM_STATE
deriving DecidableEq, Repr

/-- The fields of ICHIPWIFI that the protocol engine touches, plus `wire`,
the bytes written to serialInterface so far (the observable serial output).
`sendingBuffer` models the 64-entry C array; a slot holds `none` until the
engine first writes it (the C array's initial garbage is never read before
being written, so the `none` slots are exactly the never-enqueued ones). -/
structure WifiState where
  state : ICHIP_COMM_STATE
  psWritePtr : Nat
  psReadPtr : Nat
  sendingBuffer : Nat → Option BufferedCommand
  lastSentCmd : CStr
  lastSentState : ICHIP_COMM_STATE
  lastSentTime : Nat
  wire : List Char

/-- Constants::ichipCommandPrefix, the fixed framing header `sendCmd` writes
before every command.  The constants header is outside the snapshot; the
comment on ICHIPWIFI::sendCmd (src/ichip_2128.cpp:106) documents it as the
"AT+i" part. -/
def ichipCommandHeader : CStr := "AT+i".toList

/-- The command/response terminator byte 13 (carriage return). -/
def CR : Char := Char.ofNat 13

/-- ICHIPWIFI::sendCmd (src/ichip_2128.cpp:109-133).  While the engine is
busy (state not IDLE) the command is stored at psWritePtr, which then
advances masked with 63; otherwise the framed command goes out on the wire,
the in-flight record is overwritten and the state moves to `cmdstate`.
`now` stands for the millis() timestamp taken at the send. -/
def ICHIPWIFI.sendCmd (cmd : CStr) (cmdstate : ICHIP_COMM_STATE) (now : Nat)
    (s : WifiState) : WifiState :=
  if s.state ≠ ICHIP_COMM_STATE.IDLE then
    { s with
      sendingBuffer := Function.update s.sendingBuffer s.psWritePtr
        (some ⟨cmd, cmdstate⟩),
      psWritePtr := (s.psWritePtr + 1) &&& 63 }
  else
    { s with
      wire := s.wire ++ ichipCommandHeader ++ cmd ++ [CR],
      state := cmdstate,
      lastSentTime := now,
      lastSentCmd := cmd,
      lastSentState := cmdstate }

/-- Digit characters of a positive `n`, most significant first; `fuel`
bounds the recursion depth (any fuel above `n` is enough). -/
def decCharsCore : Nat → Nat → CStr
  | 0, _ => []
  | fuel + 1, n =>
    if n = 0 then []
    else decCharsCore fuel (n / 10) ++ [Char.ofNat (48 + n % 10)]

/-- Decimal digit characters of `n`, most significant first: what a C
sprintf "%i" conversion prints for a nonnegative argument. -/
def decChars (n : Nat) : CStr :=
  if n = 0 then ['0'] else decCharsCore (n + 1) n

/-- sprintf "%03i" for a nonnegative argument: the decimal digits, left
padded with zeros to at least three characters. -/
def zeroPad3 (n : Nat) : CStr :=
  List.replicate (3 - (decChars n).length) '0' ++ decChars n

/-- The command string ICHIPWIFI::sendToSocket builds
(src/ichip_2128.cpp:135-141).  The C string literal "SSND%%:" holds two
literal percent characters: %% is an escape of printf format strings only,
and here the literal is an operand of String concatenation, not a format.
The socket number is rendered through sprintf("%03i"), the payload length
through sprintf(",%i:"); the source passes nonnegative socket numbers and
lengths, so both are modelled on Nat. -/
def socketCmdString (socket : Nat) (data : CStr) : CStr :=
  "SSND%%:".toList ++ zeroPad3 socket ++ [','] ++ decChars data.length
    ++ [':'] ++ data

/-- ICHIPWIFI::sendToSocket: formats the payload command and submits it
through sendCmd tagged SEND_SOCKET. -/
def ICHIPWIFI.sendToSocket (socket : Nat) (data : CStr) (now : Nat)
    (s : WifiState) : WifiState :=
  ICHIPWIFI.sendCmd (socketCmdString socket data) ICHIP_COMM_STATE.SEND_SOCKET
    now s

/-- ICHIPWIFI::loop (src/ichip_2128.cpp:278-280).  The body is empty:
whatever response bytes are pending on the serial interface are left unread
and no field of the object changes.  `pending` stands for the available
serial input, which the body never touches. -/
def ICHIPWIFI.loop (_pending : CStr) (s : WifiState) : WifiState := s

/-- ICHIPWIFI::processParameterChange (src/ichip_2128.cpp:287-290), also an
empty body in the source. -/
def ICHIPWIFI.processParameterChange (_key : CStr) (s : WifiState) :
    WifiState := s

/-- The engine fields as ICHIPWIFI::setup (src/ichip_2128.cpp:58-98) leaves
them: state IDLE, both ring pointers 0, empty in-flight record, and (for the
model) an empty wire and no ring slot written yet.  `now` stands for the
millis() value setup reads into lastSentTime. -/
def setupState (now : Nat) : WifiState :=
  { state := ICHIP_COMM_STATE.IDLE
    psWritePtr := 0
    psReadPtr := 0
    sendingBuffer := fun _ => none
    lastSentCmd := []
    lastSentState := ICHIP_COMM_STATE.IDLE
    lastSentTime := now
    wire := [] }

/-- Submitting a list of commands in order through sendCmd. -/
def sendAll (cs : List (CStr × ICHIP_COMM_STATE)) (now : Nat)
    (s : WifiState) : WifiState :=
  cs.foldl (fun t c => ICHIPWIFI.sendCmd c.1 c.2 now t) s

/-- Number of occupied slots of the 64-entry ring buffer: the commands
enqueued and neither dequeued nor overwritten. -/
def pendingCount (s : WifiState) : Nat :=
  ((Finset.range 64).filter fun k => (s.sendingBuffer k).isSome).card

/-- Modelled from the spec: `dequeueIfIdle()` of §4.1 — "if the engine is
IDLE and the queue is non-empty, remove and return the oldest entry;
otherwise no-op".  The read side of the queue is missing from src:
ICHIPWIFI::loop, the polling entry point that §4.2 says invokes it, is an
empty stub, and psReadPtr is only ever initialized.  Non-emptiness is
modelled as an entry being present at the read pointer. -/
def dequeueIfIdle (s : WifiState) : Option BufferedCommand × WifiState :=
  if s.state = ICHIP_COMM_STATE.IDLE then
    match s.sendingBuffer s.psReadPtr with
    | some c =>
        (some c,
          { s with
            sendingBuffer := Function.update s.sendingBuffer s.psReadPtr none,
            psReadPtr := (s.psReadPtr + 1) &&& 63 })
    | none => (none, s)
  else (none, s)

/-- Repeatedly dequeue, at most `fuel` times, collecting the delivered
commands in order. -/
def drain : Nat → WifiState → List BufferedCommand
  | 0, _ => []
  | fuel + 1, s =>
    match dequeueIfIdle s with
    | (some c, t) => c :: drain fuel t
    | (none, _) => []

lemma and_63_eq_mod (n : Nat) : n &&& 63 = n % 64 := by
  simpa using Nat.and_pow_two_sub_one_eq_mod n 6

lemma sendAll_busy_spec (cs : List (CStr × ICHIP_COMM_STATE)) (now : Nat)
    (s : WifiState) (hbusy : s.state ≠ ICHIP_COMM_STATE.IDLE)
    (hptr : s.psWritePtr = 0) (hlen : cs.length ≤ 64) :
    (sendAll cs now s).state = s.state ∧
    (sendAll cs now s).wire = s.wire ∧
    (sendAll cs now s).psReadPtr = s.psReadPtr ∧
    (sendAll cs now s).psWritePtr = cs.length % 64 ∧
    ∀ k, (sendAll cs now s).sendingBuffer k =
      cs[k]?.elim (s.sendingBuffer k) fun c => some ⟨c.1, c.2⟩ := by
  induction cs using List.reverseRecOn with
  | nil => simp [sendAll, hptr]
  | append_singleton l c ih =>
    have hl : l.length ≤ 64 := by
      simp only [List.length_append, List.length_singleton] at hlen; omega
    obtain ⟨hst, hw, hr, hp, hbuf⟩ := ih hl
    have hlt : l.length < 64 := by
      simp only [List.length_append, List.length_singleton] at hlen; omega
    have hfold : sendAll (l ++ [c]) now s =
        ICHIPWIFI.sendCmd c.1 c.2 now (sendAll l now s) := by
      simp [sendAll, List.foldl_append]
    have hpl : (sendAll l now s).psWritePtr = l.length := by
      rw [hp, Nat.mod_eq_of_lt hlt]
    have hbusy2 : (sendAll l now s).state ≠ ICHIP_COMM_STATE.IDLE := by
      rw [hst]; exact hbusy
    have hstep : ICHIPWIFI.sendCmd c.1 c.2 now (sendAll l now s) =
        { sendAll l now s with
          sendingBuffer := Function.update (sendAll l now s).sendingBuffer
            l.length (some ⟨c.1, c.2⟩),
          psWritePtr := (l.length + 1) % 64 } := by
      unfold ICHIPWIFI.sendCmd
      rw [if_pos hbusy2, hpl, and_63_eq_mod]
    rw [hfold, hstep]
    refine ⟨hst, hw, hr, ?_, ?_⟩
    · simp [List.length_append]
    · intro k
      show Function.update (sendAll l now s).sendingBuffer
          l.length (some ⟨c.1, c.2⟩) k = _
      by_cases hk : k = l.length
      · subst hk
        rw [Function.update_same, List.getElem?_concat_length]
        rfl
      · rw [Function.update_noteq hk, hbuf k]
        rcases Nat.lt_or_ge k l.length with hlt2 | hge
        · rw [List.getElem?_append_left hlt2]
        · have hgt : l.length < k := lt_of_le_of_ne hge (Ne.symm hk)
          rw [List.getElem?_eq_none (l := l) (le_of_lt hgt),
            List.getElem?_eq_none (l := l ++ [c])
              (by simp only [List.length_append, List.length_singleton]; omega)]

/-- C2: a sendCmd while the engine is IDLE writes exactly
prefix ++ payload ++ terminator on the wire, records the command as
in-flight and moves the state to the given one, leaving the queue alone; a
sendCmd while the engine is busy appends the pair to the queue at the write
pointer (which advances modulo 64) and transmits nothing, leaving the state
as it was — so a send while busy never causes a second transmission. -/
theorem sendCmd_idle_transmits_busy_buffers (s : WifiState) (cmd : CStr)
    (cst : ICHIP_COMM_STATE) (now : Nat) :
    (s.state = ICHIP_COMM_STATE.IDLE →
      (ICHIPWIFI.sendCmd cmd cst now s).wire =
        s.wire ++ ichipCommandHeader ++ cmd ++ [CR] ∧
      (ICHIPWIFI.sendCmd cmd cst now s).state = cst ∧
      (ICHIPWIFI.sendCmd cmd cst now s).lastSentCmd = cmd ∧
      (ICHIPWIFI.sendCmd cmd cst now s).lastSentState = cst ∧
      (ICHIPWIFI.sendCmd cmd cst now s).sendingBuffer = s.sendingBuffer ∧
      (ICHIPWIFI.sendCmd cmd cst now s).psWritePtr = s.psWritePtr) ∧
    (s.state ≠ ICHIP_COMM_STATE.IDLE →
      (ICHIPWIFI.sendCmd cmd cst now s).wire = s.wire ∧
      (ICHIPWIFI.sendCmd cmd cst now s).state = s.state ∧
      (ICHIPWIFI.sendCmd cmd cst now s).sendingBuffer =
        Function.update s.sendingBuffer s.psWritePtr (some ⟨cmd, cst⟩) ∧
      (ICHIPWIFI.sendCmd cmd cst now s).psWritePtr =
        (s.psWritePtr + 1) % 64) := by
  constructor
  · intro h
    simp [ICHIPWIFI.sendCmd, h]
  · intro h
    simp [ICHIPWIFI.sendCmd, h, and_63_eq_mod]

lemma sendCmd_busy_step (cmd : CStr) (cst : ICHIP_COMM_STATE) (now : Nat)
    (t : WifiState) (hbusy : t.state ≠ ICHIP_COMM_STATE.IDLE) :
    ICHIPWIFI.sendCmd cmd cst now t =
      { t with
        sendingBuffer := Function.update t.sendingBuffer t.psWritePtr
          (some ⟨cmd, cst⟩),
        psWritePtr := (t.psWritePtr + 1) % 64 } := by
  unfold ICHIPWIFI.sendCmd
  rw [if_pos hbusy, and_63_eq_mod]

lemma sendCmd_from_setup (cmd : CStr) (cst : ICHIP_COMM_STATE) (now : Nat) :
    (ICHIPWIFI.sendCmd cmd cst now (setupState now)).state = cst ∧
    (ICHIPWIFI.sendCmd cmd cst now (setupState now)).psWritePtr = 0 ∧
    (ICHIPWIFI.sendCmd cmd cst now (setupState now)).psReadPtr = 0 ∧
    ∀ k, (ICHIPWIFI.sendCmd cmd cst now (setupState now)).sendingBuffer k = none := by
  refine ⟨?_, ?_, ?_, fun k => ?_⟩ <;> simp [ICHIPWIFI.sendCmd, setupState]

/-- C3: with the engine busy on a first command, buffering 64 further
commands fills every ring slot (64 pending); buffering a 65th overwrites the
slot at the wrapped write pointer — exactly the one that held the oldest
unread command — leaves every other slot as it was, transmits nothing, and
the number of unread entries stays 64. -/
theorem enqueue_65th_evicts_oldest
    (first c1 c65 : CStr × ICHIP_COMM_STATE)
    (rest : List (CStr × ICHIP_COMM_STATE)) (now : Nat) (s64 s65 : WifiState)
    (hfirst : first.2 ≠ ICHIP_COMM_STATE.IDLE) (hrest : rest.length = 63)
    (h64 : s64 = sendAll (c1 :: rest) now
      (ICHIPWIFI.sendCmd first.1 first.2 now (setupState now)))
    (h65 : s65 = ICHIPWIFI.sendCmd c65.1 c65.2 now s64) :
    pendingCount s64 = 64 ∧
    s64.sendingBuffer 0 = some ⟨c1.1, c1.2⟩ ∧
    s65.sendingBuffer 0 = some ⟨c65.1, c65.2⟩ ∧
    (∀ k, 0 < k → k < 64 → s65.sendingBuffer k = s64.sendingBuffer k) ∧
    pendingCount s65 = 64 ∧
    s65.wire = s64.wire := by
  obtain ⟨hst0, hwp0, _, hbuf0⟩ := sendCmd_from_setup first.1 first.2 now
  obtain ⟨hst, hw, hr, hp, hbuf⟩ := sendAll_busy_spec (c1 :: rest) now
    (ICHIPWIFI.sendCmd first.1 first.2 now (setupState now))
    (by rw [hst0]; exact hfirst) hwp0 (by simp [hrest])
  rw [← h64] at hst hw hr hp hbuf
  have hlen64 : (c1 :: rest).length = 64 := by simp [hrest]
  have hocc : ∀ k, k < 64 → (s64.sendingBuffer k).isSome = true := by
    intro k hk
    rw [hbuf k, List.getElem?_eq_getElem (by omega : k < (c1 :: rest).length)]
    rfl
  have hcnt64 : pendingCount s64 = 64 := by
    unfold pendingCount
    rw [Finset.filter_true_of_mem
      (fun k hk => hocc k (Finset.mem_range.mp hk)), Finset.card_range]
  have hbusy64 : s64.state ≠ ICHIP_COMM_STATE.IDLE := by
    rw [hst, hst0]; exact hfirst
  have hwp64 : s64.psWritePtr = 0 := by
    rw [hp, hlen64]
  have h65e : s65 = { s64 with
      sendingBuffer := Function.update s64.sendingBuffer 0
        (some ⟨c65.1, c65.2⟩),
      psWritePtr := (0 + 1) % 64 } := by
    rw [h65, sendCmd_busy_step c65.1 c65.2 now s64 hbusy64, hwp64]
  refine ⟨hcnt64, ?_, ?_, ?_, ?_, ?_⟩
  · rw [hbuf 0, List.getElem?_cons_zero]
    rfl
  · rw [h65e]
    show Function.update s64.sendingBuffer 0
      (some ⟨c65.1, c65.2⟩) 0 = some ⟨c65.1, c65.2⟩
    rw [Function.update_same]
  · intro k hk0 _
    rw [h65e]
    show Function.update s64.sendingBuffer 0
      (some ⟨c65.1, c65.2⟩) k = s64.sendingBuffer k
    rw [Function.update_noteq (by omega)]
  · unfold pendingCount
    rw [Finset.filter_true_of_mem, Finset.card_range]
    intro k hk
    rw [h65e]
    show (Function.update s64.sendingBuffer 0
      (some ⟨c65.1, c65.2⟩) k).isSome = true
    rcases eq_or_ne k 0 with rfl | hk0
    · rw [Function.update_same]; rfl
    · rw [Function.update_noteq hk0]
      exact hocc k (Finset.mem_range.mp hk)
  · rw [h65e]

/-- Witness for C3 at a concrete run: first command W, then commands A,
then 63 copies of C fill the queue, and a 65th command Z evicts A. -/
theorem enqueue_65th_evicts_oldest_witness :
    (let s64 := sendAll ((['A'], ICHIP_COMM_STATE.SET_PARAM) ::
        List.replicate 63 (['C'], ICHIP_COMM_STATE.SET_PARAM)) 0
      (ICHIPWIFI.sendCmd ['W'] ICHIP_COMM_STATE.SET_PARAM 0 (setupState 0));
     let s65 := ICHIPWIFI.sendCmd ['Z'] ICHIP_COMM_STATE.GET_PARAM 0 s64;
     pendingCount s64 = 64 ∧
     s64.sendingBuffer 0 = some ⟨['A'], ICHIP_COMM_STATE.SET_PARAM⟩ ∧
     s65.sendingBuffer 0 = some ⟨['Z'], ICHIP_COMM_STATE.GET_PARAM⟩ ∧
     (∀ k, 0 < k → k < 64 → s65.sendingBuffer k = s64.sendingBuffer k) ∧
     pendingCount s65 = 64 ∧
     s65.wire = s64.wire) := by
  exact enqueue_65th_evicts_oldest (['W'], ICHIP_COMM_STATE.SET_PARAM)
    (['A'], ICHIP_COMM_STATE.SET_PARAM) (['Z'], ICHIP_COMM_STATE.GET_PARAM)
    (List.replicate 63 (['C'], ICHIP_COMM_STATE.SET_PARAM)) 0 _ _
    (by decide) (by decide) rfl rfl

/-- C1 (documenting the code bug): ICHIPWIFI::loop and
ICHIPWIFI::processParameterChange have empty bodies, although their own
comments (src/ichip_2128.cpp:271-276, 282-285) describe buffering the
response until the CR terminator and processing it.  Whatever complete
response line is pending, nothing is parsed, no side effect is applied, the
state does not return to IDLE, no buffered command is dequeued and nothing
is transmitted: the object is returned unchanged. -/
theorem loop_and_processParameterChange_are_stubs (pending : CStr)
    (s : WifiState) :
    ICHIPWIFI.loop pending s = s ∧
    (∀ key, ICHIPWIFI.processParameterChange key s = s) ∧
    (s.state ≠ ICHIP_COMM_STATE.IDLE →
      (ICHIPWIFI.loop pending s).state ≠ ICHIP_COMM_STATE.IDLE ∧
      (ICHIPWIFI.loop pending s).wire = s.wire ∧
      pendingCount (ICHIPWIFI.loop pending s) = pendingCount s) :=
  ⟨rfl, fun _ => rfl, fun h => ⟨h, rfl, rfl⟩⟩

lemma drain_spec (l : List BufferedCommand) : ∀ (r fuel : Nat)
    (s : WifiState), s.state = ICHIP_COMM_STATE.IDLE → s.psReadPtr = r →
    r < 64 → r + l.length ≤ 64 → l.length ≤ fuel →
    (∀ i, i < l.length → s.sendingBuffer (r + i) = l[i]?) →
    (∀ k, k < 64 → (k < r ∨ r + l.length ≤ k) → s.sendingBuffer k = none) →
    drain fuel s = l := by
  induction l with
  | nil =>
    intro r fuel s hidle hr hrlt _ _ _ hout
    cases fuel with
    | zero => rfl
    | succ m =>
      have hnone : s.sendingBuffer s.psReadPtr = none := by
        rw [hr]
        exact hout r hrlt (Or.inr (by simp))
      simp [drain, dequeueIfIdle, hidle, hnone]
  | cons c l ih =>
    intro r fuel s hidle hr hrlt hwin hfuel hin hout
    cases fuel with
    | zero => exact absurd hfuel (by simp)
    | succ m =>
      have hc : s.sendingBuffer s.psReadPtr = some c := by
        rw [hr]
        have h0 := hin 0 (by simp)
        simpa using h0
      have hstep : dequeueIfIdle s = (some c,
          { s with
            sendingBuffer := Function.update s.sendingBuffer s.psReadPtr none,
            psReadPtr := (s.psReadPtr + 1) &&& 63 }) := by
        unfold dequeueIfIdle
        rw [if_pos hidle, hc]
      have hupd : Function.update s.sendingBuffer s.psReadPtr none =
          Function.update s.sendingBuffer r none := by rw [hr]
      show drain (m + 1) s = c :: l
      rw [show drain (m + 1) s = (match dequeueIfIdle s with
        | (some c, t) => c :: drain m t
        | (none, _) => []) from rfl, hstep]
      show c :: drain m _ = c :: l
      congr 1
      rcases Nat.lt_or_ge (r + 1) 64 with h64 | h64
      · refine ih (r + 1) m _ hidle ?_ h64 (by
          simp only [List.length_cons] at hwin; omega) (by
          simp only [List.length_cons] at hfuel; omega) ?_ ?_
        · show (s.psReadPtr + 1) &&& 63 = r + 1
          rw [hr, and_63_eq_mod, Nat.mod_eq_of_lt h64]
        · intro i hi
          show Function.update s.sendingBuffer s.psReadPtr none
            (r + 1 + i) = l[i]?
          rw [hupd, Function.update_noteq (by omega : r + 1 + i ≠ r)]
          have := hin (i + 1) (by simp only [List.length_cons]; omega)
          rw [show r + (i + 1) = r + 1 + i by omega] at this
          rw [this, List.getElem?_cons_succ]
        · intro k hk hside
          show Function.update s.sendingBuffer s.psReadPtr none k = none
          rw [hupd]
          rcases eq_or_ne k r with rfl | hkr
          · rw [Function.update_same]
          · rw [Function.update_noteq hkr]
            refine hout k hk ?_
            simp only [List.length_cons]
            rcases hside with hlt | hge
            · exact Or.inl (by omega)
            · exact Or.inr (by omega)
      · have hr63 : r = 63 := by omega
        have hl0 : l.length = 0 := by
          simp only [List.length_cons] at hwin; omega
        have hlnil : l = [] := List.eq_nil_of_length_eq_zero hl0
        subst hlnil
        refine ih 0 m _ hidle ?_ (by omega) (by simp) (by simp)
          (by intro i hi; simp at hi) ?_
        · show (s.psReadPtr + 1) &&& 63 = 0
          rw [hr, hr63, and_63_eq_mod]
        · intro k hk _
          show Function.update s.sendingBuffer s.psReadPtr none k = none
          rw [hupd]
          rcases eq_or_ne k r with rfl | hkr
          · rw [Function.update_same]
          · rw [Function.update_noteq hkr]
            exact hout k hk (Or.inl (by omega))

/-- C4: commands buffered while a first command is in flight are delivered
strictly in enqueue order once the engine has returned to IDLE — draining
the modelled dequeueIfIdle yields exactly the enqueued list — and while the
engine is still busy, dequeueIfIdle delivers nothing, so a buffered command
goes out only after the in-flight command's completion is observed. -/
theorem buffered_commands_fifo
    (first : CStr × ICHIP_COMM_STATE) (cs : List (CStr × ICHIP_COMM_STATE))
    (now : Nat) (sIdle : WifiState)
    (hfirst : first.2 ≠ ICHIP_COMM_STATE.IDLE) (hlen : cs.length ≤ 64)
    (hs : sIdle = { sendAll cs now (ICHIPWIFI.sendCmd first.1 first.2 now
      (setupState now)) with state := ICHIP_COMM_STATE.IDLE }) :
    drain 64 sIdle = cs.map (fun c => ⟨c.1, c.2⟩) ∧
    (∀ t : WifiState, t.state ≠ ICHIP_COMM_STATE.IDLE →
      dequeueIfIdle t = (none, t)) := by
  obtain ⟨hst0, hwp0, hrp0, hbuf0⟩ := sendCmd_from_setup first.1 first.2 now
  obtain ⟨hst, hw, hr, hp, hbuf⟩ := sendAll_busy_spec cs now
    (ICHIPWIFI.sendCmd first.1 first.2 now (setupState now))
    (by rw [hst0]; exact hfirst) hwp0 hlen
  constructor
  · refine drain_spec (cs.map fun c => ⟨c.1, c.2⟩) 0 64 sIdle
      (by rw [hs]) ?_ (by omega) (by simpa using hlen) (by simpa using hlen)
      ?_ ?_
    · rw [hs]
      show (sendAll cs now (ICHIPWIFI.sendCmd first.1 first.2 now
        (setupState now))).psReadPtr = 0
      rw [hr, hrp0]
    · intro i hi
      rw [hs]
      show (sendAll cs now (ICHIPWIFI.sendCmd first.1 first.2 now
        (setupState now))).sendingBuffer (0 + i) = _
      rw [Nat.zero_add, hbuf i,
        List.getElem?_eq_getElem (by simpa using hi),
        List.getElem?_map, List.getElem?_eq_getElem (by simpa using hi)]
      rfl
    · intro k hk hside
      rw [hs]
      show (sendAll cs now (ICHIPWIFI.sendCmd first.1 first.2 now
        (setupState now))).sendingBuffer k = none
      rw [hbuf k, List.getElem?_eq_none ?_]
      · exact hbuf0 k
      · rcases hside with h0 | hge
        · omega
        · simpa using hge
  · intro t ht
    simp [dequeueIfIdle, ht]

/-- Witness for C4 at a concrete run: two commands buffered behind an
in-flight W are drained in their enqueue order A, B. -/
theorem buffered_commands_fifo_witness :
    (let sIdle := { sendAll [(['A'], ICHIP_COMM_STATE.SET_PARAM),
        (['B'], ICHIP_COMM_STATE.GET_PARAM)] 0
      (ICHIPWIFI.sendCmd ['W'] ICHIP_COMM_STATE.SET_PARAM 0 (setupState 0))
        with state := ICHIP_COMM_STATE.IDLE };
     drain 64 sIdle = [⟨['A'], ICHIP_COMM_STATE.SET_PARAM⟩,
       ⟨['B'], ICHIP_COMM_STATE.GET_PARAM⟩] ∧
     (∀ t : WifiState, t.state ≠ ICHIP_COMM_STATE.IDLE →
       dequeueIfIdle t = (none, t))) := by
  exact buffered_commands_fifo (['W'], ICHIP_COMM_STATE.SET_PARAM)
    [(['A'], ICHIP_COMM_STATE.SET_PARAM), (['B'], ICHIP_COMM_STATE.GET_PARAM)]
    0 _ (by decide) (by decide) rfl

/-- The number a big-endian string of decimal digit characters denotes. -/
def decValue (l : CStr) : Nat :=
  l.foldl (fun a c => a * 10 + (c.toNat - 48)) 0

lemma decCharsCore_eq_digits (fuel : Nat) : ∀ n, n ≤ fuel →
    decCharsCore fuel n =
      (Nat.digits 10 n).reverse.map fun d => Char.ofNat (48 + d) := by
  induction fuel with
  | zero =>
    intro n hn
    have h0 : n = 0 := by omega
    subst h0
    simp [decCharsCore]
  | succ fuel ih =>
    intro n hn
    by_cases h0 : n = 0
    · subst h0; simp [decCharsCore]
    · have hdiv : n / 10 < n := Nat.div_lt_self (Nat.pos_of_ne_zero h0)
        (by norm_num)
      rw [show decCharsCore (fuel + 1) n =
          decCharsCore fuel (n / 10) ++ [Char.ofNat (48 + n % 10)] from by
        simp [decCharsCore, h0]]
      rw [ih (n / 10) (by omega),
        Nat.digits_def' (by norm_num : (1:ℕ) < 10) (Nat.pos_of_ne_zero h0)]
      simp

lemma decValue_aux (ds : List Nat) (hd : ∀ d ∈ ds, d < 10) : ∀ a : Nat,
    (ds.reverse.map fun d => Char.ofNat (48 + d)).foldl
      (fun x c => x * 10 + (c.toNat - 48)) a =
      a * 10 ^ ds.length + Nat.ofDigits 10 ds := by
  induction ds with
  | nil => intro a; simp
  | cons d ds ih =>
    intro a
    have hd10 : d < 10 := hd d (by simp)
    have hds : ∀ x ∈ ds, x < 10 := fun x hx => hd x (by simp [hx])
    have hchar : (Char.ofNat (48 + d)).toNat = 48 + d := by
      interval_cases d <;> rfl
    rw [List.reverse_cons, List.map_append, List.foldl_append]
    simp only [List.map_cons, List.map_nil, List.foldl_cons, List.foldl_nil]
    rw [ih hds a, hchar, Nat.ofDigits_cons]
    have h48 : 48 + d - 48 = d := by omega
    rw [h48]
    simp only [List.length_cons, pow_succ]
    ring

lemma decValue_decChars (n : Nat) : decValue (decChars n) = n := by
  by_cases h0 : n = 0
  · subst h0; rfl
  · unfold decChars
    rw [if_neg h0, decCharsCore_eq_digits (n + 1) n (by omega)]
    unfold decValue
    rw [decValue_aux (Nat.digits 10 n)
      (fun d hd => Nat.digits_lt_base (by norm_num) hd) 0]
    simp [Nat.ofDigits_digits]

lemma decChars_length_le_three (n : Nat) (h : n ≤ 999) :
    (decChars n).length ≤ 3 := by
  by_cases h0 : n = 0
  · subst h0; decide
  · unfold decChars
    rw [if_neg h0, decCharsCore_eq_digits (n + 1) n (by omega)]
    simp only [List.length_map, List.length_reverse]
    by_contra hlen
    push_neg at hlen
    have hle := Nat.base_pow_length_digits_le 10 n (by norm_num) h0
    have h4 : (10:ℕ) ^ 4 ≤ 10 ^ (Nat.digits 10 n).length :=
      Nat.pow_le_pow_right (by norm_num) (by omega)
    have h5 : (10:ℕ) ^ 4 = 10000 := by norm_num
    omega

lemma zeroPad3_length (n : Nat) (h : n ≤ 999) : (zeroPad3 n).length = 3 := by
  have := decChars_length_le_three n h
  unfold zeroPad3
  rw [List.length_append, List.length_replicate]
  omega

lemma decValue_replicate_zero (k : Nat) (l : CStr) :
    decValue (List.replicate k '0' ++ l) = decValue l := by
  induction k with
  | zero => simp
  | succ k ih =>
    rw [List.replicate_succ, List.cons_append]
    show decValue (List.replicate k '0' ++ l) = decValue l
    exact ih

lemma decValue_zeroPad3 (n : Nat) : decValue (zeroPad3 n) = n := by
  unfold zeroPad3
  rw [decValue_replicate_zero, decValue_decChars]

/-- C5 counterexample: at socket 2 with the 5-byte payload hello the
formatter does not produce the claimed SSND%:002,5:hello — the command it
builds starts with SSND%% (two percent characters). -/
theorem socketCmdString_not_single_percent :
    socketCmdString 2 "hello".toList ≠ "SSND%:002,5:hello".toList := by
  decide

/-- C5 as amended: the formatter emits "SSND%%:" — with two percent
characters, because the C literal "SSND%%:" is not a printf format — then
the socket id as a 3-digit zero-padded decimal (for socket ids up to 999),
a comma, the exact decimal byte length of the payload, a colon, and the
payload bytes; submitted from an idle engine, exactly that command goes out
framed on the wire. -/
theorem socketCmdString_shape (socket : Nat) (data : CStr)
    (h : socket ≤ 999) :
    socketCmdString socket data =
      "SSND%%:".toList ++ zeroPad3 socket ++ [','] ++ decChars data.length
        ++ [':'] ++ data ∧
    (zeroPad3 socket).length = 3 ∧
    decValue (zeroPad3 socket) = socket ∧
    decValue (decChars data.length) = data.length ∧
    ∀ s : WifiState, s.state = ICHIP_COMM_STATE.IDLE → ∀ now,
      (ICHIPWIFI.sendToSocket socket data now s).wire =
        s.wire ++ ichipCommandHeader ++ socketCmdString socket data ++ [CR] := by
  refine ⟨rfl, zeroPad3_length socket h, decValue_zeroPad3 socket,
    decValue_decChars data.length, ?_⟩
  intro s hs now
  unfold ICHIPWIFI.sendToSocket ICHIPWIFI.sendCmd
  rw [if_neg (by simp [hs])]

/-- Witness for the amended C5 at socket 2 and payload hello. -/
theorem socketCmdString_shape_witness :
    (socketCmdString 2 "hello".toList =
      "SSND%%:".toList ++ zeroPad3 2 ++ [','] ++
        decChars ("hello".toList).length ++ [':'] ++ "hello".toList ∧
    (zeroPad3 2).length = 3 ∧
    decValue (zeroPad3 2) = 2 ∧
    decValue (decChars ("hello".toList).length) = ("hello".toList).length ∧
    ∀ s : WifiState, s.state = ICHIP_COMM_STATE.IDLE → ∀ now,
      (ICHIPWIFI.sendToSocket 2 ("hello".toList) now s).wire =
        s.wire ++ ichipCommandHeader ++ socketCmdString 2 "hello".toList
          ++ [CR]) := by
  exact socketCmdString_shape 2 "hello".toList (by norm_num)

/-- Abstract rendering of the Logger::console lines that
SerialConsole::handleConfigCmd can print; each constructor stands for one
call site, carrying its formatted arguments. -/
inductive ConsoleMsg where
  | needsValue
  | blank
  | settingLogLevel (level : Nat)
  | doutState (pin : Int) (value : Nat)
  | doutSummary (values : List Nat)
  | nukeDone
  | unknownCommand
deriving DecidableEq, Repr

/-- A message handleConfigCmd dispatches to the wifi device through
DeviceManager::sendMessage: MSG_COMMAND with its payload string, or the
MSG_CONFIG_CHANGE configuration-reload notification. -/
inductive WifiMsg where
  | command (payload : CStr)
  | configChange
deriving DecidableEq, Repr

/-- Everything one call of SerialConsole::handleConfigCmd does beyond
consuming its line: messages to the wifi device in order, console output,
Logger::setLoglevel calls, EESYS_LOG_LEVEL bytes written through sysPrefs,
setOutput calls (pin, level), and the device slots zeroed by NUKE. -/
structure ConfigEffects where
  msgs : List WifiMsg := []
  console : List ConsoleMsg := []
  logLevelSets : List Int := []
  prefWrites : List Nat := []
  outputSets : List (Int × Nat) := []
  nukeSlots : List Nat := []
deriving DecidableEq, Repr

/-- The C isspace set strtol skips. -/
def isCSpace (c : Char) : Bool :=
  c == ' ' || c == '\t' || c == '\n' || c == Char.ofNat 11 ||
    c == Char.ofNat 12 || c == '\r'

/-- Value of a hexadecimal digit character, if it is one. -/
def hexDigitVal (c : Char) : Option Nat :=
  if '0' ≤ c ∧ c ≤ '9' then some (c.toNat - 48)
  else if 'a' ≤ c ∧ c ≤ 'f' then some (c.toNat - 87)
  else if 'A' ≤ c ∧ c ≤ 'F' then some (c.toNat - 55)
  else none

/-- Whether `c` is a digit of base `b` (for b up to 16). -/
def isBaseDigit (b : Nat) (c : Char) : Bool :=
  match hexDigitVal c with
  | some v => v < b
  | none => false

/-- Value of the longest run of base-`b` digits at the front of `s`. -/
def digitsVal (b : Nat) (s : CStr) : Nat :=
  (s.takeWhile (isBaseDigit b)).foldl
    (fun a c => a * b + (hexDigitVal c).getD 0) 0

/-- Magnitude part of C strtol with base 0: 0x or 0X followed by a hex
digit selects hexadecimal, a leading 0 selects octal, anything else
decimal (a bare "0x" parses the 0 and stops, value 0, as in C). -/
def strtolMag (s : CStr) : Nat :=
  match s with
  | '0' :: x :: rest =>
    if (x == 'x' || x == 'X') && (match rest with
        | d :: _ => isBaseDigit 16 d
        | [] => false) then
      digitsVal 16 rest
    else digitsVal 8 ('0' :: x :: rest)
  | _ => digitsVal 10 s

/-- C strtol(value, NULL, 0) as handleConfigCmd calls it
(src/SerialConsole.cpp:188): skip C whitespace, an optional sign, then the
base-0 magnitude.  Overflow clamping to LONG_MAX/LONG_MIN is not modelled:
every dispatch decision made on newValue (the 0-4 switch, newValue < 8,
newValue == 1) falls on the same side for the clamped and the unclamped
value, since the clamp only replaces huge magnitudes by huge magnitudes of
the same sign. -/
def strtol (s : CStr) : Int :=
  match s.dropWhile isCSpace with
  | '-' :: r => - (strtolMag r : Int)
  | '+' :: r => (strtolMag r : Int)
  | r => (strtolMag r : Int)

/-- The key-dispatch chain of SerialConsole::handleConfigCmd
(src/SerialConsole.cpp:192-305) once the line is split: `key` is the
uppercased key, `value` the raw value text (the C string at cmdBuffer+i),
`newValue` its strtol value, `dout` the current getOutput level of each
digital output.  A branch that leaves updateWifi true ends with the
trailing MSG_CONFIG_CHANGE; WIREACH, SSID, IP, CHANNEL, SECURITY, PWD and
the unknown branch clear it.  LOGLEVEL's switch prints and sets the level
only for 0..4 but always writes the low byte of newValue to EESYS_LOG_LEVEL;
OUTPUT (only for newValue < 8) reads the output and toggles it; NUKE needs
exactly 1 to zero the 64 device slots. -/
def configDispatch (key value : CStr) (newValue : Int) (dout : Int → Nat) :
    ConfigEffects :=
  if key = "LOGLEVEL".toList then
    { console := if 0 ≤ newValue ∧ newValue ≤ 4 then
        [ConsoleMsg.settingLogLevel newValue.toNat] else [],
      logLevelSets := if 0 ≤ newValue ∧ newValue ≤ 4 then [newValue] else [],
      prefWrites := [(newValue % 256).toNat],
      msgs := [WifiMsg.configChange] }
  else if key = "WIREACH".toList then
    { msgs := [WifiMsg.command value, WifiMsg.command "DOWN".toList] }
  else if key = "SSID".toList then
    { msgs := [WifiMsg.command ("WLSI=".toList ++ value),
               WifiMsg.command "DOWN".toList] }
  else if key = "IP".toList then
    { msgs := [WifiMsg.command ("DIP=".toList ++ value),
               WifiMsg.command "DOWN".toList] }
  else if key = "CHANNEL".toList then
    { msgs := [WifiMsg.command ("WLCH=".toList ++ value),
               WifiMsg.command "DOWN".toList] }
  else if key = "SECURITY".toList then
    { msgs := [WifiMsg.command ("WLPP=".toList ++ value),
               WifiMsg.command "DOWN".toList] }
  else if key = "PWD".toList then
    { msgs := [WifiMsg.command ("WPWD=".toList ++ value),
               WifiMsg.command "DOWN".toList] }
  else if key = "OUTPUT".toList ∧ newValue < 8 then
    { console := [ConsoleMsg.doutState newValue (dout newValue),
        ConsoleMsg.doutSummary ((List.range 8).map fun j => dout
          (Int.ofNat j))],
      outputSets := [(newValue, if dout newValue ≠ 0 then 0 else 1)],
      msgs := [WifiMsg.configChange] }
  else if key = "NUKE".toList then
    if newValue = 1 then
      { nukeSlots := List.range 64, console := [ConsoleMsg.nukeDone],
        msgs := [WifiMsg.configChange] }
    else { msgs := [WifiMsg.configChange] }
  else
    { console := [ConsoleMsg.unknownCommand] }

/-- SerialConsole::handleConfigCmd (src/SerialConsole.cpp:161-305) on one
complete line (the first ptrBuffer bytes of cmdBuffer).  A line shorter
than 6 bytes returns silently.  The key is the run of bytes before the
first '=' (String::concat of the 0 char appends nothing, so an embedded
NUL is dropped from the comparison key), uppercased as toUpperCase does for
ASCII.  If nothing follows the '=' — or there is no '=' — the usage hint
and a blank line are printed.  The value is the C string starting behind
the '=' (ending at an embedded NUL byte if any, else at the terminator
null written at cmdBuffer[ptrBuffer]). -/
def runConfigCmd (line : CStr) (dout : Int → Nat) : ConfigEffects :=
  if line.length < 6 then {} else
  let rawKey := line.takeWhile fun c => c != '='
  let i := rawKey.length + 1
  if line.length ≤ i then
    { console := [ConsoleMsg.needsValue, ConsoleMsg.blank] }
  else
    let key := (rawKey.filter fun c => c != Char.ofNat 0).map Char.toUpper
    let value := (line.drop i).takeWhile fun c => c != Char.ofNat 0
    configDispatch key value (strtol value) dout

/-- The line-accumulation state of SerialConsole: cmdBuffer and its write
offset ptrBuffer. -/
structure ConsoleLineState where
  cmdBuffer : Nat → Char
  ptrBuffer : Nat

/-- The accumulation state after SerialConsole::init: ptrBuffer 0 (the
buffer contents are irrelevant until written; the model zeroes them). -/
def initConsole : ConsoleLineState :=
  { cmdBuffer := fun _ => Char.ofNat 0, ptrBuffer := 0 }

/-- One byte through SerialConsole::serialEvent
(src/SerialConsole.cpp:128-143).  A terminator byte (10 or 13) hands the
accumulated line to handleConsoleCmd and resets ptrBuffer; any other byte
is stored at ptrBuffer, which is post-incremented and then clamped back to
79. -/
def serialEventByte (incoming : Char) (s : ConsoleLineState) :
    ConsoleLineState :=
  if incoming = Char.ofNat 10 ∨ incoming = Char.ofNat 13 then
    { s with ptrBuffer := 0 }
  else
    { cmdBuffer := Function.update s.cmdBuffer s.ptrBuffer incoming,
      ptrBuffer := if s.ptrBuffer + 1 > 79 then 79 else s.ptrBuffer + 1 }

/-- Feeding a byte sequence through serialEvent. -/
def feedBytes (bs : CStr) (s : ConsoleLineState) : ConsoleLineState :=
  bs.foldl (fun t b => serialEventByte b t) s

/-- The line handleConsoleCmd would process: the first ptrBuffer bytes of
cmdBuffer. -/
def currentLine (s : ConsoleLineState) : CStr :=
  (List.range s.ptrBuffer).map s.cmdBuffer

lemma takeWhile_append_stop (p : Char → Bool) (pre : CStr) (x : Char)
    (rest : CStr) (hpre : ∀ c ∈ pre, p c = true) (hx : p x = false) :
    (pre ++ x :: rest).takeWhile p = pre := by
  induction pre with
  | nil => simp [List.takeWhile_cons, hx]
  | cons a pre ih =>
    have ha : p a = true := hpre a (by simp)
    simp [List.takeWhile_cons, ha, ih fun c hc => hpre c (by simp [hc])]

lemma runConfigCmd_split (key v : CStr) (dout : Int → Nat)
    (hkey : ∀ c ∈ key, c ≠ '=') (hlen : 6 ≤ key.length + 1 + v.length)
    (hv : v ≠ []) (hnul : Char.ofNat 0 ∉ v) :
    runConfigCmd (key ++ '=' :: v) dout =
      configDispatch ((key.filter fun c => c != Char.ofNat 0).map
        Char.toUpper) v (strtol v) dout := by
  have hL : (key ++ '=' :: v).length = key.length + 1 + v.length := by
    simp only [List.length_append, List.length_cons]
    omega
  have htw : (key ++ '=' :: v).takeWhile (fun c => c != '=') = key :=
    takeWhile_append_stop _ key '=' v
      (fun c hc => by simp [hkey c hc]) (by simp)
  have hvpos : 0 < v.length := List.length_pos.mpr hv
  have hdrop : (key ++ '=' :: v).drop (key.length + 1) = v := by
    rw [show key ++ '=' :: v = (key ++ ['=']) ++ v by simp,
      show key.length + 1 = (key ++ ['=']).length by simp]
    exact List.drop_left _ _
  have hvtw : v.takeWhile (fun c => c != Char.ofNat 0) = v :=
    List.takeWhile_eq_self_iff.mpr fun c hc => by
      have hcne : c ≠ Char.ofNat 0 := fun h => hnul (h ▸ hc)
      simp [hcne]
  simp only [runConfigCmd]
  rw [if_neg (by omega), htw, if_neg (by omega), hdrop, hvtw]

/-- C6: the console line SSID=MyNet sends to the wifi device exactly the
command WLSI=MyNet followed by DOWN, and — updateWifi having been cleared
by this branch — no trailing MSG_CONFIG_CHANGE and no other side effect. -/
theorem ssid_line_sends_wlsi_then_down (dout : Int → Nat) :
    runConfigCmd ("SSID=MyNet".toList) dout =
      { msgs := [WifiMsg.command "WLSI=MyNet".toList,
                 WifiMsg.command "DOWN".toList] } := rfl

/-- C7 counterexample: the 3-byte malformed line A=B is dropped silently —
handleConfigCmd returns before printing anything, so no usage hint appears,
contrary to the claim that malformed lines print one. -/
theorem short_line_prints_no_hint :
    (runConfigCmd "A=B".toList fun _ => 0) = {} ∧
    ((runConfigCmd "A=B".toList fun _ => 0).console = []) :=
  ⟨rfl, rfl⟩

/-- C7 as amended: a multi-byte line shorter than 6 bytes is ignored with
no output at all and no state change; a line of 6 bytes or more whose first
'=' has nothing after it (or that has no '=') prints the usage hint plus a
blank line and likewise changes nothing — in both cases no peripheral
message is sent, no configuration value is written and no output is
toggled. -/
theorem malformed_config_line_no_state_change (dout : Int → Nat) :
    (∀ line : CStr, line.length < 6 → runConfigCmd line dout = {}) ∧
    (∀ line : CStr, 6 ≤ line.length →
      line.length ≤ (line.takeWhile fun c => c != '=').length + 1 →
      runConfigCmd line dout =
        { console := [ConsoleMsg.needsValue, ConsoleMsg.blank] }) := by
  constructor
  · intro line h
    simp [runConfigCmd, h]
  · intro line h6 hno
    simp only [runConfigCmd]
    rw [if_neg (by omega), if_pos hno]

/-- The wifi-parameter configuration keys and the peripheral command each
translates to (src/SerialConsole.cpp:218-268): the value is appended to the
listed stem, and WIREACH passes the value through bare. -/
def wifiParamKeys : List (CStr × CStr) :=
  [("WIREACH".toList, "".toList), ("SSID".toList, "WLSI=".toList),
   ("IP".toList, "DIP=".toList), ("CHANNEL".toList, "WLCH=".toList),
   ("SECURITY".toList, "WLPP=".toList), ("PWD".toList, "WPWD=".toList)]

/-- C9: every recognized wifi-parameter key (WIREACH, SSID, IP, CHANNEL,
SECURITY, PWD) sends its translated peripheral command followed by a second
command DOWN, clears updateWifi so the trailing MSG_CONFIG_CHANGE is
suppressed, and has no other effect. -/
theorem wifi_param_keys_send_translation_then_down
    (kp : CStr × CStr) (v : CStr) (dout : Int → Nat)
    (hk : kp ∈ wifiParamKeys) (hv : v ≠ []) (hnul : Char.ofNat 0 ∉ v)
    (hlen : 6 ≤ kp.1.length + 1 + v.length) :
    runConfigCmd (kp.1 ++ '=' :: v) dout =
      { msgs := [WifiMsg.command (kp.2 ++ v),
                 WifiMsg.command "DOWN".toList] } := by
  fin_cases hk <;>
    (rw [runConfigCmd_split _ v dout (by decide) hlen hv hnul]; rfl)

/-- Witness for C9 at the SSID key and the value MyNet. -/
theorem wifi_param_keys_witness :
    (runConfigCmd ("SSID".toList ++ '=' :: "MyNet".toList) fun _ => 0) =
      { msgs := [WifiMsg.command ("WLSI=".toList ++ "MyNet".toList),
                 WifiMsg.command "DOWN".toList] } := by
  exact wifi_param_keys_send_translation_then_down
    ("SSID".toList, "WLSI=".toList) "MyNet".toList (fun _ => 0)
    (by decide) (by decide) (by decide) (by decide)

/-- C10: a line OUTPUT=v whose value parses to 8 or more fails the
newValue < 8 guard and falls through to the unknown-command branch: only
Unknown command is printed, no output is read or toggled, nothing is
written, and no message — in particular no MSG_CONFIG_CHANGE — goes to the
peripheral. -/
theorem output_ge_8_unknown_command (v : CStr) (dout : Int → Nat)
    (hv : v ≠ []) (hnul : Char.ofNat 0 ∉ v) (h8 : 8 ≤ strtol v) :
    runConfigCmd ("OUTPUT".toList ++ '=' :: v) dout =
      { console := [ConsoleMsg.unknownCommand] } := by
  rw [runConfigCmd_split _ v dout (by decide)
    (by have hO : ("OUTPUT".toList).length = 6 := rfl; omega) hv hnul]
  show configDispatch ("OUTPUT".toList) v (strtol v) dout = _
  unfold configDispatch
  rw [if_neg (by decide), if_neg (by decide), if_neg (by decide),
    if_neg (by decide), if_neg (by decide), if_neg (by decide),
    if_neg (by decide),
    if_neg (fun h => by omega), if_neg (by decide)]

/-- Witness for C10 at OUTPUT=9. -/
theorem output_ge_8_unknown_command_witness :
    (runConfigCmd ("OUTPUT".toList ++ '=' :: ['9']) fun _ => 0) =
      { console := [ConsoleMsg.unknownCommand] } := by
  exact output_ge_8_unknown_command ['9'] (fun _ => 0)
    (by decide) (by decide) (by decide)

lemma feedBytes_spec (bs : CStr)
    (hterm : ∀ b ∈ bs, b ≠ Char.ofNat 10 ∧ b ≠ Char.ofNat 13) :
    (feedBytes bs initConsole).ptrBuffer = min bs.length 79 ∧
    ∀ i, i < bs.length → i < 79 →
      (feedBytes bs initConsole).cmdBuffer i = bs.getD i (Char.ofNat 0) := by
  induction bs using List.reverseRecOn with
  | nil =>
    constructor
    · rfl
    · intro i hi _
      simp at hi
  | append_singleton l b ih =>
    have hb := hterm b (by simp)
    obtain ⟨hptr, hbuf⟩ := ih fun x hx => hterm x (by simp [hx])
    have hfold : feedBytes (l ++ [b]) initConsole =
        serialEventByte b (feedBytes l initConsole) := by
      simp [feedBytes, List.foldl_append]
    have hstep : serialEventByte b (feedBytes l initConsole) =
        { cmdBuffer := Function.update (feedBytes l initConsole).cmdBuffer
            (min l.length 79) b,
          ptrBuffer := if min l.length 79 + 1 > 79 then 79
            else min l.length 79 + 1 } := by
      unfold serialEventByte
      rw [if_neg (by simp [hb.1, hb.2]), hptr]
    rw [hfold, hstep]
    constructor
    · show (if min l.length 79 + 1 > 79 then 79 else min l.length 79 + 1) =
        min (l ++ [b]).length 79
      simp only [List.length_append, List.length_singleton]
      split <;> omega
    · intro i hi h79
      show Function.update (feedBytes l initConsole).cmdBuffer
        (min l.length 79) b i = (l ++ [b]).getD i (Char.ofNat 0)
      rcases Nat.lt_or_ge i l.length with hil | hil
      · rw [Function.update_noteq (by omega), hbuf i hil h79,
          List.getD_eq_getElem?_getD, List.getD_eq_getElem?_getD,
          List.getElem?_append_left hil]
      · have hieq : i = l.length := by
          simp only [List.length_append, List.length_singleton] at hi
          omega
        subst hieq
        have hmin : min l.length 79 = l.length := by omega
        rw [hmin, Function.update_same, List.getD_eq_getElem?_getD,
          List.getElem?_concat_length]
        rfl

/-- C8: feeding any sequence of non-terminator bytes from a fresh line
buffer, the write offset ptrBuffer never exceeds 79, and bytes beyond the
79-byte cap are silently dropped: the line handleConsoleCmd would process
is exactly the first 79 input bytes (the whole input when it is shorter). -/
theorem console_line_truncates_to_79 (bs : CStr)
    (hterm : ∀ b ∈ bs, b ≠ Char.ofNat 10 ∧ b ≠ Char.ofNat 13) :
    (feedBytes bs initConsole).ptrBuffer ≤ 79 ∧
    currentLine (feedBytes bs initConsole) = bs.take 79 := by
  obtain ⟨hptr, hbuf⟩ := feedBytes_spec bs hterm
  refine ⟨by omega, ?_⟩
  unfold currentLine
  rw [hptr]
  refine List.ext_getElem (by simp [Nat.min_comm]) ?_
  intro i h1 h2
  have hi79 : i < 79 := by
    simp only [List.length_map, List.length_range] at h1
    omega
  have hilen : i < bs.length := by
    simp only [List.length_map, List.length_range] at h1
    omega
  simp only [List.getElem_map, List.getElem_range, List.getElem_take]
  rw [hbuf i hilen hi79, List.getD_eq_getElem?_getD,
    List.getElem?_eq_getElem hilen]
  rfl

/-- Witness for C8 at the two-byte input AB. -/
theorem console_line_truncates_to_79_witness :
    (feedBytes ['A', 'B'] initConsole).ptrBuffer ≤ 79 ∧
    currentLine (feedBytes ['A', 'B'] initConsole) = ['A', 'B'].take 79 := by
  exact console_line_truncates_to_79 ['A', 'B'] (by decide)
